import Mathlib

set_option maxRecDepth 8000

/-!
Verification development for the Gym Habit database layer (`database.py`).

The development shallowly embeds the data-store component:
* `GymDatabase` operations over a pure list-of-records state
  (`load_gyms`, `get_gyms_by_partner`, `get_gym_by_id`, `get_nearby_gyms`,
  `add_gym`, `delete_gym`, `_save_to_csv`);
* a small heap/reference model of the same operations to reason about
  Python dict aliasing (which record objects a read returns);
* `SubscriptionManager.save_request` with the wall clock passed explicitly;
* `calculate_subscription_plans` over an exact model of IEEE-754 binary64
  arithmetic (rationals rounded to 53-bit significands, round half to even);
* `haversine_distance` over the reals.

Machine `float`s are modelled as exact rationals plus an explicit rounding
function `fl`; Python `int(x)` truncation is `pyint`; Python's stable
`list.sort(key=...)` is `sortByKey` (stable insertion sort — a stable sort by
a key is unique, so this has the same value as Timsort).
-/

/-- A gym record as stored in `GymDatabase.gyms` (the dict built in
`load_gyms`/`add_gym`; it never carries a `distance` key). Coordinates are
the exact rational values of the floats, the id a Python int. -/
structure Gym where
  id : ℤ
  partner_name : String
  gym_name : String
  address : String
  pincode : String
  latitude : ℚ
  longitude : ℚ
  subscription_amount : ℤ
  amenities : String
deriving DecidableEq, Repr

/-- Input to `add_gym` (`gym_data`): the same fields without an id.  The
numeric fields are already coerced to their declared types (`float(...)`,
`int(...)` in the source succeed on well-formed input; coercion failure is the
caller-side *InvalidFieldValue* path, out of scope here). -/
structure GymData where
  partner_name : String
  gym_name : String
  address : String
  pincode : String
  latitude : ℚ
  longitude : ℚ
  subscription_amount : ℤ
  amenities : String
deriving DecidableEq, Repr

/-- Python `max(xs, default=0)`. -/
def pyMax (l : List ℤ) : ℤ :=
  match l with
  | [] => 0
  | x :: xs => xs.foldl max x

/-- Python `str.strip()` with no argument: remove leading and trailing
whitespace. -/
def pyStrip (s : String) : String :=
  ⟨((s.data.dropWhile Char.isWhitespace).reverse.dropWhile Char.isWhitespace).reverse⟩

/-- Python `str.lower()` (ASCII case folding suffices for this data). -/
def pyLower (s : String) : String :=
  ⟨s.data.map Char.toLower⟩

namespace GymDatabase

/-- One data row of the backing CSV file (header
`PartnerName,GymName,Address,Pincode,Latitude,Longitude,SubscriptionAmount,Amenities`).
Numeric cells are kept as the numbers they parse to; a cell on which
`float`/`int` parsing would fail is covered by the `corrupt` load source
below, since `load_gyms` catches every exception whole-sale. -/
structure CsvRow where
  PartnerName : String
  GymName : String
  Address : String
  Pincode : String
  Latitude : ℚ
  Longitude : ℚ
  SubscriptionAmount : ℤ
  Amenities : String
deriving DecidableEq, Repr

/-- What opening and parsing the backing file can yield: the file is absent
(`FileNotFoundError`), reading or a row fails (`except Exception`), or it
parses to a list of rows. -/
inductive LoadSource where
  | missing
  | corrupt
  | rows (rs : List CsvRow)

/-- The dict built for row `idx` inside the `load_gyms` loop: text cells are
stripped, numeric cells taken as parsed, and `id` is the 1-based row index. -/
def parseRow (idx : ℕ) (r : CsvRow) : Gym :=
  { id := (idx : ℤ)
    partner_name := pyStrip r.PartnerName
    gym_name := pyStrip r.GymName
    address := pyStrip r.Address
    pincode := pyStrip r.Pincode
    latitude := r.Latitude
    longitude := r.Longitude
    subscription_amount := r.SubscriptionAmount
    amenities := pyStrip r.Amenities }

/-- The loop `for idx, row in enumerate(reader, start=1)`. -/
def parseRows (idx : ℕ) : List CsvRow → List Gym
  | [] => []
  | r :: rs => parseRow idx r :: parseRows (idx + 1) rs

/-- `GymDatabase.load_gyms`: `self.gyms` after the call. A missing file and
any read/parse error both leave `self.gyms = []`. -/
def load_gyms : LoadSource → List Gym
  | .missing => []
  | .corrupt => []
  | .rows rs => parseRows 1 rs

/-- `GymDatabase.get_gyms_by_partner`: falsy (empty) filter returns the whole
collection, otherwise case-insensitive exact match on the partner name. -/
def get_gyms_by_partner (gyms : List Gym) (partner : String) : List Gym :=
  if partner = "" then gyms
  else gyms.filter (fun g => pyLower g.partner_name == pyLower partner)

/-- `GymDatabase.get_gym_by_id`: first record with the given id, else `None`. -/
def get_gym_by_id (gyms : List Gym) (gym_id : ℤ) : Option Gym :=
  gyms.find? (fun g => g.id == gym_id)

/-- `GymDatabase.add_gym`: assign `max([g['id'] for g in self.gyms], default=0) + 1`,
append, persist. Returns the new state and the new id. -/
def add_gym (gyms : List Gym) (gym_data : GymData) : List Gym × ℤ :=
  let new_id := pyMax (gyms.map (fun g => g.id)) + 1
  let new_gym : Gym :=
    { id := new_id
      partner_name := gym_data.partner_name
      gym_name := gym_data.gym_name
      address := gym_data.address
      pincode := gym_data.pincode
      latitude := gym_data.latitude
      longitude := gym_data.longitude
      subscription_amount := gym_data.subscription_amount
      amenities := gym_data.amenities }
  (gyms ++ [new_gym], new_id)

/-- `GymDatabase.delete_gym`: drop every record with the given id, persist if
the length shrank, report whether a removal occurred. -/
def delete_gym (gyms : List Gym) (gym_id : ℤ) : List Gym × Bool :=
  let rest := gyms.filter (fun g => !(g.id == gym_id))
  (rest, decide (rest.length < gyms.length))

/-- `GymDatabase._save_to_csv`: the rows written back, in collection order,
fixed column order, no id column. -/
def save_to_csv (gyms : List Gym) : List CsvRow :=
  gyms.map (fun g =>
    { PartnerName := g.partner_name
      GymName := g.gym_name
      Address := g.address
      Pincode := g.pincode
      Latitude := g.latitude
      Longitude := g.longitude
      SubscriptionAmount := g.subscription_amount
      Amenities := g.amenities })

/-- Persist the collection and re-run `load_gyms` on the written file.  Cell
text round-trips through the `csv` module exactly, and `repr`/`float` of a
float round-trips exactly, so the composition acts on rows directly. -/
def saveThenLoad (gyms : List Gym) : List Gym :=
  load_gyms (.rows (save_to_csv gyms))

end GymDatabase

/-- Insert `x` after every element whose key is strictly smaller, before the
first element whose key is greater or equal.  Building a sort from this is
stable: an element is placed before the already-placed elements of equal key,
which all came later in the input. -/
def insertByKey {α : Type} (key : α → ℚ) (x : α) : List α → List α
  | [] => [x]
  | y :: ys => if key y < key x then y :: insertByKey key x ys else x :: y :: ys

/-- Python's stable `list.sort(key=...)` (a stable sort by a key is uniquely
determined, so insertion sort has the same value as Timsort). -/
def sortByKey {α : Type} (key : α → ℚ) : List α → List α
  | [] => []
  | x :: xs => insertByKey key x (sortByKey key xs)

/-- The `gym.copy()` dict of `get_nearby_gyms` with the computed `'distance'`
key added. -/
structure Ranked where
  gym : Gym
  distance : ℚ
deriving DecidableEq, Repr

namespace GymDatabase

/-- The record set `get_nearby_gyms` starts from:
`self.get_gyms_by_partner(partner) if partner else self.gyms`. -/
def partnerFiltered (gyms : List Gym) (partner : Option String) : List Gym :=
  match partner with
  | some p => if p = "" then gyms else get_gyms_by_partner gyms p
  | none => gyms

/-- The decorated candidate list of `get_nearby_gyms`, before sorting: one
fresh copy per surviving record, carrying its computed distance.  `dist`
abstracts the `haversine_distance` collaborator (the DistanceFunction
component). -/
def nearbyCandidates (dist : ℚ → ℚ → ℚ → ℚ → ℚ) (gyms : List Gym)
    (user_lat user_lon : ℚ) (partner : Option String) : List Ranked :=
  (partnerFiltered gyms partner).map
    (fun g => Ranked.mk g (dist user_lat user_lon g.latitude g.longitude))

/-- `GymDatabase.get_nearby_gyms`: decorate, sort ascending by distance
(stably), truncate to `limit`. -/
def get_nearby_gyms (dist : ℚ → ℚ → ℚ → ℚ → ℚ) (gyms : List Gym)
    (user_lat user_lon : ℚ) (partner : Option String) (limit : ℕ) : List Ranked :=
  (sortByKey Ranked.distance
    (nearbyCandidates dist gyms user_lat user_lon partner)).take limit

end GymDatabase

/-! ### Exact model of IEEE-754 binary64 arithmetic

A finite Python `float` is an exact rational; an arithmetic operation rounds
the exact rational result to 53 significant bits, round-to-nearest, ties to
even.  `fl` is that rounding (with unbounded exponent range: no
overflow/underflow, which the plan calculator never reaches for realistic
prices, and which the spec does not discuss). -/

/-- Floor of the base-2 logarithm of a positive rational: of the two
candidates determined by the bit lengths of numerator and denominator, pick
the right one by a single comparison. -/
def ilog2 (q : ℚ) : ℤ :=
  let k : ℤ := (q.num.toNat.log2 : ℤ)
  let j : ℤ := (q.den.log2 : ℤ)
  if (2 : ℚ) ^ (k - j) ≤ q then k - j else k - j - 1

/-- Round a rational to the nearest integer, ties to even. -/
def rhe (m : ℚ) : ℤ :=
  let f := ⌊m⌋
  let r := m - (f : ℚ)
  if r < 1 / 2 then f
  else if 1 / 2 < r then f + 1
  else if f % 2 = 0 then f else f + 1

/-- Round a positive rational to 53 significant bits, ties to even. -/
def flPos (q : ℚ) : ℚ :=
  let e := ilog2 q
  ((rhe (q * (2 : ℚ) ^ (52 - e)) : ℤ) : ℚ) * (2 : ℚ) ^ (e - 52)

/-- Round an exact rational to the nearest IEEE-754 binary64 value. -/
def fl (q : ℚ) : ℚ :=
  if q = 0 then 0
  else if 0 < q then flPos q
  else -flPos (-q)

/-- The binary64 value of the literal `0.93` (8376695306909123 × 2⁻⁵³). -/
def lit093 : ℚ := 8376695306909123 / 9007199254740992

/-- The binary64 value of the literal `0.07` (1261007895663739 × 2⁻⁵⁴). -/
def lit007 : ℚ := 1261007895663739 / 18014398509481984

/-- The binary64 value of the literal `0.83` (7475975381435023 × 2⁻⁵³). -/
def lit083 : ℚ := 7475975381435023 / 9007199254740992

/-- The binary64 value of the literal `0.17` (6124895493223875 × 2⁻⁵⁵). -/
def lit017 : ℚ := 6124895493223875 / 36028797018963968

/-- Python `int(q)` on a float: truncation toward zero. -/
def pyint (q : ℚ) : ℤ :=
  if 0 ≤ q then ⌊q⌋ else -⌊-q⌋

/-- Python `int * float`: the int is converted to binary64, then the product
is rounded to binary64. -/
def pyIntMulFloat (n : ℤ) (x : ℚ) : ℚ :=
  fl (fl (n : ℚ) * x)

/-- One value of the `plans` dict of `calculate_subscription_plans`. -/
structure PlanDetails where
  duration : String
  total : ℤ
  monthly : ℤ
  savings : ℤ
deriving DecidableEq, Repr

/-- `calculate_subscription_plans`: the plans dict as an ordered list of
(tag, details) pairs (CPython dicts preserve insertion order). -/
def calculate_subscription_plans (base_monthly : ℤ) : List (String × PlanDetails) :=
  [ ("1-month",
      { duration := "1 month"
        total := base_monthly
        monthly := base_monthly
        savings := 0 }),
    ("3-month",
      { duration := "3 months"
        total := pyint (pyIntMulFloat (base_monthly * 3) lit093)
        monthly := pyint (pyIntMulFloat base_monthly lit093)
        savings := pyint (pyIntMulFloat (base_monthly * 3) lit007) }),
    ("12-month",
      { duration := "12 months"
        total := pyint (pyIntMulFloat (base_monthly * 12) lit083)
        monthly := pyint (pyIntMulFloat base_monthly lit083)
        savings := pyint (pyIntMulFloat (base_monthly * 12) lit017) }) ]

/-! ### Haversine distance

`haversine_distance` chains `math` library transcendentals; it is modelled
over the real numbers (each `math.*` call is the correctly-rounded real
function, composition error is irrelevant to the symmetry and zero claims,
which hold exactly at every intermediate precision because the rounded
operands are *equal*, not merely close). -/

/-- Python `round(x, 2)`. The claims below apply it only to equal inputs and
to `0`, where the direction of decimal tie-breaking is irrelevant. -/
noncomputable def round2 (x : ℝ) : ℝ :=
  ((round (x * 100) : ℤ) : ℝ) / 100

/-- `haversine_distance(lat1, lon1, lat2, lon2)`: great-circle distance in
kilometers, Earth radius 6371.0 km, inputs in degrees, rounded to 2 decimals. -/
noncomputable def haversine_distance (lat1 lon1 lat2 lon2 : ℝ) : ℝ :=
  let R : ℝ := 6371
  let lat1_rad := lat1 * (Real.pi / 180)
  let lon1_rad := lon1 * (Real.pi / 180)
  let lat2_rad := lat2 * (Real.pi / 180)
  let lon2_rad := lon2 * (Real.pi / 180)
  let dlat := lat2_rad - lat1_rad
  let dlon := lon2_rad - lon1_rad
  let a := Real.sin (dlat / 2) ^ 2 +
    Real.cos lat1_rad * Real.cos lat2_rad * Real.sin (dlon / 2) ^ 2
  let c := 2 * Real.arcsin (Real.sqrt a)
  round2 (R * c)

/-! ### SubscriptionManager -/

/-- Python `str.startswith`. -/
def pyStartswith (s pre : String) : Bool :=
  pre.data.isPrefixOf s.data

/-- Python `f"{n:03d}"` for a nonnegative `n`: zero-pad the decimal digits to
width 3 (wider numbers keep all their digits). -/
def pad3 (n : ℕ) : String :=
  let s := toString n
  String.mk (List.replicate (3 - s.length) '0') ++ s

/-- Input to `save_request` (`request_data`): required fields plus the
optional ones read with `.get`. -/
structure RequestData where
  gym_id : ℤ
  gym_name : String
  partner_name : String
  full_name : String
  email : String
  phone : String
  preferred_plan : String
  billing_address : Option String
  message : Option String
  user_latitude : Option ℚ
  user_longitude : Option ℚ
  user_city : Option String
deriving DecidableEq, Repr

/-- A stored subscription request object. -/
structure Request where
  request_id : String
  timestamp : String
  gym_id : ℤ
  gym_name : String
  partner_name : String
  full_name : String
  email : String
  phone : String
  preferred_plan : String
  billing_address : String
  message : String
  user_latitude : Option ℚ
  user_longitude : Option ℚ
  user_city : Option String
  status : String
deriving DecidableEq, Repr

namespace SubscriptionManager

/-- The number of stored requests whose id starts with `REQ_<today>`
(the `request_count` bound to `len([...]) + 1` is this plus one). -/
def sameDayCount (today : String) (requests : List Request) : ℕ :=
  (requests.filter (fun r => pyStartswith r.request_id ("REQ_" ++ today))).length

/-- `SubscriptionManager.save_request`.  The wall clock enters as the
`datetime.now()` values `today` (`%Y%m%d`) and `now` (ISO); `requests` is the
list the call re-reads from the backing JSON file.  Returns the rewritten
list and the new request id. -/
def save_request (today now : String) (requests : List Request)
    (request_data : RequestData) : List Request × String :=
  let request_count := sameDayCount today requests + 1
  let request_id := "REQ_" ++ today ++ "_" ++ pad3 request_count
  let new_request : Request :=
    { request_id := request_id
      timestamp := now
      gym_id := request_data.gym_id
      gym_name := request_data.gym_name
      partner_name := request_data.partner_name
      full_name := request_data.full_name
      email := request_data.email
      phone := request_data.phone
      preferred_plan := request_data.preferred_plan
      billing_address := request_data.billing_address.getD ""
      message := request_data.message.getD ""
      user_latitude := request_data.user_latitude
      user_longitude := request_data.user_longitude
      user_city := request_data.user_city
      status := "pending" }
  (requests ++ [new_request], request_id)

end SubscriptionManager

/-! ### Heap/reference model of the gym store

Python dicts are mutable objects; `self.gyms` is a list of references into
the object heap.  To settle the defensive-copy and frame claims the read
operations are re-embedded over an explicit heap: cell indices stand for
object identities, `PyGym.distance` models the `'distance'` key (absent,
`none`, on every stored record; `get_nearby_gyms` adds it to its copies). -/

/-- A gym dict as a heap object: the stored fields plus the optional
`'distance'` key. -/
structure PyGym where
  id : ℤ
  partner_name : String
  gym_name : String
  address : String
  pincode : String
  latitude : ℚ
  longitude : ℚ
  subscription_amount : ℤ
  amenities : String
  distance : Option ℚ
deriving DecidableEq, Repr

instance : Inhabited PyGym :=
  ⟨⟨0, "", "", "", "", 0, 0, 0, "", none⟩⟩

/-- The heap: cell `r` holds the dict object with identity `r`. -/
abbrev Heap := List PyGym

/-- Dereference a cell. -/
def hget (h : Heap) (r : ℕ) : PyGym :=
  h.getD r default

/-- The record contents a caller observes in `self.gyms`. -/
def storeView (h : Heap) (refs : List ℕ) : List PyGym :=
  refs.map (hget h)

/-- A caller assigning into a dict it holds a reference to
(e.g. `gym['gym_name'] = ...` on a returned record). -/
def mutate (h : Heap) (r : ℕ) (g : PyGym) : Heap :=
  h.set r g

namespace GymDatabase

/-- `get_gym_by_id` in the reference model: the returned value is the stored
dict reference itself, not a copy. -/
def get_gym_by_id_ref (h : Heap) (refs : List ℕ) (gym_id : ℤ) : Option ℕ :=
  refs.find? (fun r => (hget h r).id == gym_id)

/-- `get_gyms_by_partner` in the reference model: a falsy filter returns the
internal list itself; otherwise a fresh list of the stored references. -/
def get_gyms_by_partner_ref (h : Heap) (refs : List ℕ) (partner : String) : List ℕ :=
  if partner = "" then refs
  else refs.filter (fun r => pyLower (hget h r).partner_name == pyLower partner)

/-- `get_nearby_gyms` in the reference model: per surviving record allocate a
fresh `gym.copy()` cell carrying the `'distance'` key, sort the copies, take
`limit`; the store's own cells and reference list are untouched.  Returns the
extended heap and the references to the returned records. -/
def get_nearby_gyms_ref (dist : ℚ → ℚ → ℚ → ℚ → ℚ) (h : Heap) (refs : List ℕ)
    (user_lat user_lon : ℚ) (partner : Option String) (limit : ℕ) : Heap × List ℕ :=
  let base := match partner with
    | some p => if p = "" then refs else get_gyms_by_partner_ref h refs p
    | none => refs
  let copies := base.map (fun r =>
    { hget h r with
      distance := some (dist user_lat user_lon (hget h r).latitude (hget h r).longitude) })
  let taken := (sortByKey (fun g => g.distance.getD 0) copies).take limit
  (h ++ taken, List.range' h.length taken.length)

end GymDatabase

/-! ### Auxiliary predicates for the round-trip claim -/

namespace GymDatabase

/-- The records carry ids `n, n+1, ...` positionally (what a fresh `load`
establishes with `n = 1`). -/
def seqIds : ℕ → List Gym → Prop
  | _, [] => True
  | n, g :: gs => g.id = (n : ℤ) ∧ seqIds (n + 1) gs

/-- Every text field of the record is unchanged by `str.strip`. -/
def trimmed (g : Gym) : Prop :=
  pyStrip g.partner_name = g.partner_name ∧
  pyStrip g.gym_name = g.gym_name ∧
  pyStrip g.address = g.address ∧
  pyStrip g.pincode = g.pincode ∧
  pyStrip g.amenities = g.amenities

end GymDatabase

/-! ### Concrete sample data for witnesses and counterexamples -/

/-- A well-formed `add_gym` input with whitespace-clean text fields. -/
def sampleData : GymData :=
  ⟨"P", "G", "A", "PC", 0, 0, 0, "am"⟩

/-- A record with id 1. -/
def sampleGym1 : Gym :=
  ⟨1, "P", "G", "A", "PC", 0, 0, 0, "am"⟩

/-- A record with id 2 (as a lone collection: the state reached by loading
two rows and deleting the first). -/
def sampleGym2 : Gym :=
  ⟨2, "Q", "H", "B", "QC", 0, 0, 0, "bm"⟩

/-- A heap-model record with id 1 and no `'distance'` key. -/
def samplePyGym : PyGym :=
  ⟨1, "P", "G", "A", "PC", 0, 0, 0, "am", none⟩

/-- The result of a caller assigning a new gym name through a reference it
obtained to `samplePyGym`. -/
def mutatedPyGym : PyGym :=
  { samplePyGym with gym_name := "HACKED" }

/-- A subscription inquiry input. -/
def sampleRequestData : RequestData :=
  ⟨7, "G", "P", "Alice Doe", "a@b.c", "9123456780", "3-month",
    none, none, none, none, none⟩

/-- A stored request whose id starts with `REQ_20260101`. -/
def sameDayStub : Request :=
  ⟨"REQ_20260101", "2026-01-01T00:00:00", 7, "G", "P", "A", "e", "p",
    "1-month", "", "", none, none, none, "pending"⟩

/-! ## Theorems -/

/-! ### Folded-maximum helpers -/

theorem le_foldl_max (l : List ℤ) (b : ℤ) : b ≤ l.foldl max b := by
  induction l generalizing b with
  | nil => exact le_refl b
  | cons y ys ih => exact le_trans (le_max_left b y) (ih (max b y))

theorem mem_le_foldl_max {x : ℤ} (l : List ℤ) (b : ℤ) (h : x ∈ l) :
    x ≤ l.foldl max b := by
  induction l generalizing b with
  | nil => cases h
  | cons y ys ih =>
    rcases List.mem_cons.mp h with rfl | hmem
    · exact le_trans (le_max_right b x) (le_foldl_max ys (max b x))
    · exact ih (max b y) hmem

theorem mem_le_pyMax {x : ℤ} {l : List ℤ} (h : x ∈ l) : x ≤ pyMax l := by
  cases l with
  | nil => cases h
  | cons y ys =>
    rcases List.mem_cons.mp h with rfl | hmem
    · exact le_foldl_max ys x
    · exact mem_le_foldl_max ys y hmem

theorem foldl_max_le {l : List ℤ} {b c : ℤ} (hb : b ≤ c) (h : ∀ x ∈ l, x ≤ c) :
    l.foldl max b ≤ c := by
  induction l generalizing b with
  | nil => exact hb
  | cons y ys ih =>
    exact ih (max_le hb (h y (List.mem_cons_self y _))) fun x hx => h x (List.mem_cons_of_mem y hx)

theorem pyMax_le {l : List ℤ} {c : ℤ} (hc : 0 ≤ c) (h : ∀ x ∈ l, x ≤ c) :
    pyMax l ≤ c := by
  cases l with
  | nil => exact hc
  | cons y ys =>
    exact foldl_max_le (h y (List.mem_cons_self y _)) fun x hx => h x (List.mem_cons_of_mem y hx)

/-! ### C1 -/

/-- C1 counterexample: the claim "an identifier that has been removed by
delete is never assigned again to any record added later" is false.  From the
empty store, `add` assigns id 1; after `delete(1)` succeeds, the next `add`
assigns id 1 again (the running maximum fell back to 0). -/
theorem C1_id_reuse_counterexample :
    (GymDatabase.add_gym [] sampleData).2 = 1 ∧
    (GymDatabase.delete_gym (GymDatabase.add_gym [] sampleData).1 1).2 = true ∧
    (GymDatabase.add_gym
      (GymDatabase.delete_gym (GymDatabase.add_gym [] sampleData).1 1).1 sampleData).2 = 1 :=
  ⟨rfl, rfl, rfl⟩

/-- C1 amended: `add_gym` assigns the maximum identifier currently in the
collection plus 1 (1 when the collection is empty), and the new identifier is
strictly greater than every identifier currently present — but an identifier
removed by `delete_gym` can be assigned again once no larger identifier
remains, as the counterexample shows. -/
theorem C1_add_assigns_max_plus_one : ∀ (gyms : List Gym) (gd : GymData),
    (GymDatabase.add_gym gyms gd).2 = pyMax (gyms.map (fun g => g.id)) + 1 ∧
    (gyms = [] → (GymDatabase.add_gym gyms gd).2 = 1) ∧
    ∀ g ∈ gyms, g.id < (GymDatabase.add_gym gyms gd).2 := by
  intro gyms gd
  refine ⟨rfl, ?_, ?_⟩
  · rintro rfl; rfl
  · intro g hg
    have h : g.id ≤ pyMax (gyms.map (fun g => g.id)) :=
      mem_le_pyMax (List.mem_map_of_mem (f := fun g : Gym => g.id) hg)
    show g.id < pyMax (gyms.map (fun g => g.id)) + 1
    omega

/-- C1 amended, instantiated at a singleton store. -/
theorem C1_add_assigns_max_plus_one_witness :
    (GymDatabase.add_gym [sampleGym1] sampleData).2 =
      pyMax ([sampleGym1].map (fun g => g.id)) + 1 ∧
    ([sampleGym1] = [] → (GymDatabase.add_gym [sampleGym1] sampleData).2 = 1) ∧
    ∀ g ∈ [sampleGym1], g.id < (GymDatabase.add_gym [sampleGym1] sampleData).2 :=
  C1_add_assigns_max_plus_one [sampleGym1] sampleData

/-! ### Filter-length helpers and C7 -/

theorem filter_not_add_filter_length {α : Type} (p : α → Bool) (l : List α) :
    (l.filter (fun a => !(p a))).length + (l.filter p).length = l.length := by
  induction l with
  | nil => rfl
  | cons x xs ih =>
    rw [List.filter_cons, List.filter_cons]
    by_cases h : p x = true
    · rw [if_neg (by simp [h]), if_pos h]
      simp only [List.length_cons]
      omega
    · have hf : p x = false := by revert h; cases p x <;> simp
      rw [if_pos (by simp [hf]), if_neg h]
      simp only [List.length_cons]
      omega

theorem nodup_filter_id_length {l : List Gym} (i : ℤ)
    (hnd : (l.map (fun g => g.id)).Nodup) :
    (l.filter (fun g => g.id == i)).length ≤ 1 := by
  induction l with
  | nil => simp
  | cons g gs ih =>
    simp only [List.map_cons, List.nodup_cons] at hnd
    rw [List.filter_cons]
    by_cases h : (g.id == i) = true
    · have hg : g.id = i := beq_iff_eq.mp h
      have hnil : gs.filter (fun g => g.id == i) = [] := by
        apply List.filter_eq_nil_iff.mpr
        intro x hx hbx
        exact hnd.1 (hg ▸ (beq_iff_eq.mp hbx) ▸ List.mem_map_of_mem (f := fun g : Gym => g.id) hx)
      rw [if_pos h, hnil]
      simp
    · simp only [h, if_false]
      exact ih hnd.2

/-- C7: `delete_gym` on a collection with pairwise-distinct identifiers
returns `true` exactly when a record with the identifier was present; in that
case the size shrinks by exactly 1 and a subsequent `get_gym_by_id` of that
identifier returns `none`; for an absent identifier the collection is
unchanged and the call signals `false` (a no-op, not an error). -/
theorem C7_delete_semantics : ∀ (gyms : List Gym) (gym_id : ℤ),
    (gyms.map (fun g => g.id)).Nodup →
    ((GymDatabase.delete_gym gyms gym_id).2 = true ↔ ∃ g ∈ gyms, g.id = gym_id) ∧
    ((∃ g ∈ gyms, g.id = gym_id) →
      (GymDatabase.delete_gym gyms gym_id).1.length + 1 = gyms.length ∧
      GymDatabase.get_gym_by_id (GymDatabase.delete_gym gyms gym_id).1 gym_id = none) ∧
    ((¬ ∃ g ∈ gyms, g.id = gym_id) →
      (GymDatabase.delete_gym gyms gym_id).1 = gyms ∧
      (GymDatabase.delete_gym gyms gym_id).2 = false) := by
  intro gyms gym_id hnd
  have hlen := filter_not_add_filter_length (fun g : Gym => g.id == gym_id) gyms
  have hcnt_le := nodup_filter_id_length gym_id hnd
  have hfst : (GymDatabase.delete_gym gyms gym_id).1 =
      gyms.filter (fun g => !(g.id == gym_id)) := rfl
  have hmem_cnt : (∃ g ∈ gyms, g.id = gym_id) →
      1 ≤ (gyms.filter (fun g => g.id == gym_id)).length := by
    rintro ⟨g, hg, hid⟩
    exact List.length_pos_of_mem (List.mem_filter.mpr ⟨hg, beq_iff_eq.mpr hid⟩)
  have habs : (¬ ∃ g ∈ gyms, g.id = gym_id) →
      gyms.filter (fun g => !(g.id == gym_id)) = gyms := by
    intro h
    apply List.filter_eq_self.mpr
    intro a ha
    simp only [Bool.not_eq_true', beq_eq_false_iff_ne]
    exact fun hc => h ⟨a, ha, hc⟩
  refine ⟨?_, ?_, ?_⟩
  · show decide _ = true ↔ _
    rw [decide_eq_true_iff]
    constructor
    · intro hlt
      by_contra hne
      rw [habs hne] at hlt
      exact lt_irrefl _ hlt
    · intro hex
      have h1 := hmem_cnt hex
      omega
  · intro hex
    have h1 := hmem_cnt hex
    constructor
    · rw [hfst]; omega
    · rw [hfst]
      apply List.find?_eq_none.mpr
      intro x hx
      have h2 := (List.mem_filter.mp hx).2
      simp only [Bool.not_eq_true', beq_eq_false_iff_ne] at h2
      simp [h2]
  · intro hne
    have h2 := habs hne
    refine ⟨by rw [hfst, h2], ?_⟩
    show decide _ = false
    rw [decide_eq_false_iff_not, h2]
    exact lt_irrefl _

/-- C7, instantiated: deleting id 1 from a two-record store. -/
theorem C7_delete_semantics_witness :
    ((GymDatabase.delete_gym [sampleGym1, sampleGym2] 1).2 = true ↔
      ∃ g ∈ [sampleGym1, sampleGym2], g.id = 1) ∧
    ((∃ g ∈ [sampleGym1, sampleGym2], g.id = 1) →
      (GymDatabase.delete_gym [sampleGym1, sampleGym2] 1).1.length + 1 =
        [sampleGym1, sampleGym2].length ∧
      GymDatabase.get_gym_by_id (GymDatabase.delete_gym [sampleGym1, sampleGym2] 1).1 1 = none) ∧
    ((¬ ∃ g ∈ [sampleGym1, sampleGym2], g.id = 1) →
      (GymDatabase.delete_gym [sampleGym1, sampleGym2] 1).1 = [sampleGym1, sampleGym2] ∧
      (GymDatabase.delete_gym [sampleGym1, sampleGym2] 1).2 = false) :=
  C7_delete_semantics [sampleGym1, sampleGym2] 1 (by simp [sampleGym1, sampleGym2])

/-! ### C8 -/

theorem parseRows_map_id : ∀ (rs : List GymDatabase.CsvRow) (n : ℕ),
    (GymDatabase.parseRows n rs).map (fun g => g.id) =
      (List.range' n rs.length).map (fun i => (i : ℤ)) := by
  intro rs
  induction rs with
  | nil => intro n; rfl
  | cons r rest ih =>
    intro n
    simp only [GymDatabase.parseRows, List.map_cons, List.length_cons, List.range'_succ]
    exact congrArg (List.cons _) (ih (n + 1))

/-- C8: `load_gyms` on a missing backing file and on an unreadable/corrupt
one results in the empty collection (not an error), and on a parsed file it
assigns identifiers 1..N to the rows in file order. -/
theorem C8_load_identifiers_and_degradation :
    GymDatabase.load_gyms .missing = [] ∧
    GymDatabase.load_gyms .corrupt = [] ∧
    ∀ rs : List GymDatabase.CsvRow,
      (GymDatabase.load_gyms (.rows rs)).map (fun g => g.id) =
        (List.range' 1 rs.length).map (fun i => (i : ℤ)) :=
  ⟨rfl, rfl, fun rs => parseRows_map_id rs 1⟩

/-! ### C3 helpers -/

theorem find?_append_singleton {α : Type} (p : α → Bool) (l : List α) (a : α)
    (h : ∀ x ∈ l, p x = false) :
    (l ++ [a]).find? p = if p a then some a else none := by
  induction l with
  | nil =>
    by_cases hp : p a = true
    · rw [List.nil_append, List.find?_cons_of_pos _ hp, if_pos hp]
    · have hf : p a = false := by revert hp; cases p a <;> simp
      rw [List.nil_append, List.find?_cons_of_neg _ (by simp [hf]), if_neg hp]
      rfl
  | cons x xs ih =>
    rw [List.cons_append, List.find?_cons_of_neg _ (by simp [h x (List.mem_cons_self x _)])]
    exact ih fun y hy => h y (List.mem_cons_of_mem x hy)

theorem seqIds_mem_le {l : List Gym} : ∀ {n : ℕ}, GymDatabase.seqIds n l →
    ∀ g ∈ l, g.id ≤ (n : ℤ) + l.length - 1 := by
  induction l with
  | nil => intro n _ g hg; cases hg
  | cons x xs ih =>
    intro n h g hg
    rcases List.mem_cons.mp hg with rfl | hmem
    · rw [h.1]
      simp only [List.length_cons]
      push_cast
      omega
    · have := ih h.2 g hmem
      simp only [List.length_cons]
      push_cast at this ⊢
      omega

theorem seqIds_last_mem {l : List Gym} : ∀ {n : ℕ}, GymDatabase.seqIds n l → l ≠ [] →
    ((n : ℤ) + l.length - 1) ∈ l.map (fun g => g.id) := by
  induction l with
  | nil => intro n _ hne; exact absurd rfl hne
  | cons x xs ih =>
    intro n h _
    cases xs with
    | nil =>
      simp only [List.map_cons, List.map_nil, List.mem_singleton, List.length_cons,
        List.length_nil, h.1]
      push_cast
      ring
    | cons y ys =>
      have hmem := ih h.2 (by simp)
      apply List.mem_cons_of_mem
      have heq : ((n : ℤ) + (x :: y :: ys).length - 1) = ((n + 1 : ℕ) : ℤ) + (y :: ys).length - 1 := by
        simp only [List.length_cons]
        push_cast
        ring
      rw [heq]
      exact hmem

theorem seqIds_pyMax {l : List Gym} (h : GymDatabase.seqIds 1 l) :
    pyMax (l.map (fun g => g.id)) = l.length := by
  cases hl : l with
  | nil => rfl
  | cons g gs =>
    subst hl
    apply le_antisymm
    · apply pyMax_le (by positivity)
      intro x hx
      obtain ⟨g', hg', rfl⟩ := List.mem_map.mp hx
      have := seqIds_mem_le h g' hg'
      push_cast at this ⊢
      omega
    · have hmem := seqIds_last_mem h (by simp)
      have := mem_le_pyMax hmem
      push_cast at this ⊢
      omega

theorem seqIds_append {l : List Gym} {a : Gym} : ∀ {n : ℕ}, GymDatabase.seqIds n l →
    a.id = (n : ℤ) + l.length → GymDatabase.seqIds n (l ++ [a]) := by
  induction l with
  | nil =>
    intro n _ ha
    exact ⟨by rw [ha]; simp, trivial⟩
  | cons x xs ih =>
    intro n h ha
    refine ⟨h.1, ih h.2 ?_⟩
    rw [ha]
    simp only [List.length_cons]
    push_cast
    ring

theorem parseRows_save_to_csv : ∀ (l : List Gym) (n : ℕ),
    GymDatabase.seqIds n l → (∀ g ∈ l, GymDatabase.trimmed g) →
    GymDatabase.parseRows n (GymDatabase.save_to_csv l) = l := by
  intro l
  induction l with
  | nil => intro n _ _; rfl
  | cons g gs ih =>
    intro n hseq htr
    obtain ⟨hid, hrest⟩ := hseq
    obtain ⟨h1, h2, h3, h4, h5⟩ := htr g (List.mem_cons_self g _)
    simp only [GymDatabase.save_to_csv, List.map_cons, GymDatabase.parseRows]
    have hrow : GymDatabase.parseRow n
        { PartnerName := g.partner_name, GymName := g.gym_name, Address := g.address,
          Pincode := g.pincode, Latitude := g.latitude, Longitude := g.longitude,
          SubscriptionAmount := g.subscription_amount, Amenities := g.amenities } = g := by
      cases g with
      | mk gid pn gn ad pc la lo sa am =>
        simp only at h1 h2 h3 h4 h5 hid
        simp [GymDatabase.parseRow, Gym.mk.injEq, h1, h2, h3, h4, h5, hid]
    rw [hrow]
    exact congrArg (List.cons g) (ih (n + 1) hrest fun x hx => htr x (List.mem_cons_of_mem g hx))

/-! ### C3 -/

/-- C3 counterexample: the persist/load round-trip does *not* reproduce the
collection for every store state.  The CSV file stores no id column and
`load_gyms` re-assigns ids 1..N positionally, so from the (reachable) state
`[sampleGym2]` — a record holding id 2 — adding a record yields ids `[2, 3]`,
but saving and re-loading yields ids `[1, 2]`. -/
theorem C3_roundtrip_counterexample :
    GymDatabase.saveThenLoad (GymDatabase.add_gym [sampleGym2] sampleData).1 ≠
      (GymDatabase.add_gym [sampleGym2] sampleData).1 := by
  intro h
  have h2 := congrArg (List.map (fun g => g.id)) h
  have hL : (GymDatabase.saveThenLoad (GymDatabase.add_gym [sampleGym2] sampleData).1).map
      (fun g => g.id) = [1, 2] := by
    show (GymDatabase.parseRows 1
      (GymDatabase.save_to_csv (GymDatabase.add_gym [sampleGym2] sampleData).1)).map
      (fun g => g.id) = [1, 2]
    rw [parseRows_map_id]
    rfl
  have hR : ((GymDatabase.add_gym [sampleGym2] sampleData).1).map (fun g => g.id) = [2, 3] := rfl
  rw [h2, hR] at hL
  exact absurd hL (by decide)

/-- C3 amended: after `add_gym`, looking up the new id returns exactly the
input record carrying the assigned id, and the collection grows by exactly 1
— unconditionally.  The persist/load round-trip reproduces the collection
under the conditions the counterexample shows are necessary: the pre-add
identifiers are exactly 1..n in order (as after a fresh load) and all text
fields (stored and added) are whitespace-clean, since `load_gyms` re-assigns
ids positionally and strips text cells. -/
theorem C3_add_lookup_size_roundtrip : ∀ (gyms : List Gym) (gd : GymData),
    GymDatabase.get_gym_by_id (GymDatabase.add_gym gyms gd).1 (GymDatabase.add_gym gyms gd).2 =
      some { id := (GymDatabase.add_gym gyms gd).2, partner_name := gd.partner_name,
             gym_name := gd.gym_name, address := gd.address, pincode := gd.pincode,
             latitude := gd.latitude, longitude := gd.longitude,
             subscription_amount := gd.subscription_amount, amenities := gd.amenities } ∧
    (GymDatabase.add_gym gyms gd).1.length = gyms.length + 1 ∧
    (GymDatabase.seqIds 1 gyms → (∀ g ∈ gyms, GymDatabase.trimmed g) →
      pyStrip gd.partner_name = gd.partner_name → pyStrip gd.gym_name = gd.gym_name →
      pyStrip gd.address = gd.address → pyStrip gd.pincode = gd.pincode →
      pyStrip gd.amenities = gd.amenities →
      GymDatabase.saveThenLoad (GymDatabase.add_gym gyms gd).1 =
        (GymDatabase.add_gym gyms gd).1) := by
  intro gyms gd
  refine ⟨?_, ?_, ?_⟩
  · show (gyms ++ [_]).find? _ = _
    rw [find?_append_singleton]
    · split
      · rfl
      · rename_i hfalse
        exact absurd (beq_iff_eq.mpr rfl) hfalse
    · intro x hx
      apply beq_eq_false_iff_ne.mpr
      have h : x.id ≤ pyMax (gyms.map (fun g => g.id)) :=
        mem_le_pyMax (List.mem_map_of_mem (f := fun g : Gym => g.id) hx)
      intro hc
      have hc2 : x.id = pyMax (gyms.map (fun g => g.id)) + 1 := hc
      omega
  · show (gyms ++ [_]).length = gyms.length + 1
    simp
  · intro hseq htr t1 t2 t3 t4 t5
    apply parseRows_save_to_csv _ 1 ?_ ?_
    · apply seqIds_append hseq
      show pyMax (gyms.map (fun g => g.id)) + 1 = (1 : ℤ) + gyms.length
      rw [seqIds_pyMax hseq]
      ring
    · intro x hx
      rcases List.mem_append.mp hx with hmem | hmem
      · exact htr x hmem
      · rw [List.mem_singleton.mp hmem]
        exact ⟨t1, t2, t3, t4, t5⟩

/-- C3 amended, instantiated: adding to the freshly-loaded-shape store
`[sampleGym1]` (ids `[1]`, clean text), every hypothesis discharged. -/
theorem C3_add_lookup_size_roundtrip_witness :
    GymDatabase.saveThenLoad (GymDatabase.add_gym [sampleGym1] sampleData).1 =
      (GymDatabase.add_gym [sampleGym1] sampleData).1 ∧
    (GymDatabase.add_gym [sampleGym1] sampleData).1.length = [sampleGym1].length + 1 :=
  ⟨(C3_add_lookup_size_roundtrip [sampleGym1] sampleData).2.2
      ⟨rfl, trivial⟩
      (fun g hg => by
        rw [List.mem_singleton.mp hg]
        exact ⟨rfl, rfl, rfl, rfl, rfl⟩)
      rfl rfl rfl rfl rfl,
   (C3_add_lookup_size_roundtrip [sampleGym1] sampleData).2.1⟩

/-! ### Stable-sort helpers -/

theorem mem_insertByKey {α : Type} (key : α → ℚ) (x a : α) (l : List α) :
    a ∈ insertByKey key x l ↔ a = x ∨ a ∈ l := by
  induction l with
  | nil => simp [insertByKey]
  | cons y ys ih =>
    simp only [insertByKey]
    by_cases h : key y < key x
    · rw [if_pos h]
      simp only [List.mem_cons, ih]
      tauto
    · rw [if_neg h]
      simp only [List.mem_cons]

theorem mem_sortByKey {α : Type} (key : α → ℚ) (a : α) (l : List α) :
    a ∈ sortByKey key l ↔ a ∈ l := by
  induction l with
  | nil => simp [sortByKey]
  | cons x xs ih =>
    simp only [sortByKey, mem_insertByKey, ih, List.mem_cons]

theorem pairwise_insertByKey {α : Type} (key : α → ℚ) (x : α) {l : List α}
    (h : l.Pairwise (fun a b => key a ≤ key b)) :
    (insertByKey key x l).Pairwise (fun a b => key a ≤ key b) := by
  induction l with
  | nil => simp [insertByKey]
  | cons y ys ih =>
    simp only [insertByKey]
    by_cases hc : key y < key x
    · rw [if_pos hc]
      rw [List.pairwise_cons]
      refine ⟨?_, ih (List.pairwise_cons.mp h).2⟩
      intro b hb
      rcases (mem_insertByKey key x b ys).mp hb with rfl | hmem
      · exact le_of_lt hc
      · exact (List.pairwise_cons.mp h).1 b hmem
    · rw [if_neg hc]
      rw [List.pairwise_cons]
      refine ⟨?_, h⟩
      intro b hb
      rcases List.mem_cons.mp hb with rfl | hmem
      · exact le_of_not_lt hc
      · exact le_trans (le_of_not_lt hc) ((List.pairwise_cons.mp h).1 b hmem)

theorem sorted_sortByKey {α : Type} (key : α → ℚ) (l : List α) :
    (sortByKey key l).Pairwise (fun a b => key a ≤ key b) := by
  induction l with
  | nil => exact List.Pairwise.nil
  | cons x xs ih => exact pairwise_insertByKey key x ih

theorem filter_key_insertByKey {α : Type} (key : α → ℚ) (x : α) (l : List α) (c : ℚ) :
    (insertByKey key x l).filter (fun a => key a == c) =
      if key x == c then x :: l.filter (fun a => key a == c)
      else l.filter (fun a => key a == c) := by
  induction l with
  | nil =>
    simp only [insertByKey, List.filter_cons, List.filter_nil]
  | cons y ys ih =>
    simp only [insertByKey]
    by_cases hc : key y < key x
    · by_cases hy : (key y == c) = true
      · by_cases hx : (key x == c) = true
        · exfalso
          have h1 := beq_iff_eq.mp hy
          have h2 := beq_iff_eq.mp hx
          rw [h1, h2] at hc
          exact lt_irrefl c hc
        · simp [hc, List.filter_cons, hy, hx, ih]
      · simp [hc, List.filter_cons, hy, ih]
    · simp [hc, List.filter_cons]

theorem filter_key_sortByKey {α : Type} (key : α → ℚ) (l : List α) (c : ℚ) :
    (sortByKey key l).filter (fun a => key a == c) = l.filter (fun a => key a == c) := by
  induction l with
  | nil => rfl
  | cons x xs ih =>
    simp only [sortByKey]
    rw [filter_key_insertByKey, ih, List.filter_cons]

/-! ### C5 -/

/-- C5: the nearest query first applies the partner filter, computes the
distance of each surviving record via the distance function, returns at most
`limit` records in non-decreasing distance order, and records at equal
distance keep their original collection order (the filtered result at any
fixed distance value is a sublist of the decorated candidate list, which is
in collection order).  Stated for every distance function, so in particular
for `haversine_distance`. -/
theorem C5_nearby_filter_sort_limit :
    ∀ (dist : ℚ → ℚ → ℚ → ℚ → ℚ) (gyms : List Gym) (user_lat user_lon : ℚ)
      (partner : Option String) (limit : ℕ),
    (GymDatabase.get_nearby_gyms dist gyms user_lat user_lon partner limit).length ≤ limit ∧
    (GymDatabase.get_nearby_gyms dist gyms user_lat user_lon partner limit).Pairwise
      (fun a b => a.distance ≤ b.distance) ∧
    (∀ x ∈ GymDatabase.get_nearby_gyms dist gyms user_lat user_lon partner limit,
      x.gym ∈ GymDatabase.partnerFiltered gyms partner ∧
      x.distance = dist user_lat user_lon x.gym.latitude x.gym.longitude) ∧
    (∀ c : ℚ,
      ((GymDatabase.get_nearby_gyms dist gyms user_lat user_lon partner limit).filter
        (fun x => x.distance == c)).Sublist
      ((GymDatabase.nearbyCandidates dist gyms user_lat user_lon partner).filter
        (fun x => x.distance == c))) := by
  intro dist gyms la lo partner limit
  have hres : GymDatabase.get_nearby_gyms dist gyms la lo partner limit =
      (sortByKey Ranked.distance (GymDatabase.nearbyCandidates dist gyms la lo partner)).take
        limit := rfl
  refine ⟨?_, ?_, ?_, ?_⟩
  · rw [hres, List.length_take]
    exact min_le_left _ _
  · rw [hres]
    exact List.Pairwise.sublist (List.take_sublist _ _) (sorted_sortByKey Ranked.distance _)
  · intro x hx
    rw [hres] at hx
    have h1 : x ∈ sortByKey Ranked.distance (GymDatabase.nearbyCandidates dist gyms la lo partner) :=
      List.mem_of_mem_take hx
    have h2 := (mem_sortByKey _ _ _).mp h1
    rw [GymDatabase.nearbyCandidates] at h2
    obtain ⟨g, hg, rfl⟩ := List.mem_map.mp h2
    exact ⟨hg, rfl⟩
  · intro c
    rw [hres]
    have hsub :=
      List.Sublist.filter (fun x : Ranked => x.distance == c)
        (List.take_sublist limit
          (sortByKey Ranked.distance (GymDatabase.nearbyCandidates dist gyms la lo partner)))
    rw [filter_key_sortByKey] at hsub
    exact hsub

/-- C5, instantiated at a concrete distance function, store, query point and
limit. -/
theorem C5_nearby_filter_sort_limit_witness :
    (GymDatabase.get_nearby_gyms (fun _ _ a b => a + b) [sampleGym1, sampleGym2] 0 0 none 1).length
      ≤ 1 ∧
    (GymDatabase.get_nearby_gyms (fun _ _ a b => a + b) [sampleGym1, sampleGym2] 0 0 none 1).Pairwise
      (fun a b => a.distance ≤ b.distance) ∧
    (∀ x ∈ GymDatabase.get_nearby_gyms (fun _ _ a b => a + b) [sampleGym1, sampleGym2] 0 0 none 1,
      x.gym ∈ GymDatabase.partnerFiltered [sampleGym1, sampleGym2] none ∧
      x.distance = (fun _ _ a b => a + b) (0 : ℚ) (0 : ℚ) x.gym.latitude x.gym.longitude) ∧
    (∀ c : ℚ,
      ((GymDatabase.get_nearby_gyms (fun _ _ a b => a + b) [sampleGym1, sampleGym2] 0 0 none 1).filter
        (fun x => x.distance == c)).Sublist
      ((GymDatabase.nearbyCandidates (fun _ _ a b => a + b) [sampleGym1, sampleGym2] 0 0 none).filter
        (fun x => x.distance == c))) :=
  C5_nearby_filter_sort_limit (fun _ _ a b => a + b) [sampleGym1, sampleGym2] 0 0 none 1

/-! ### C2 -/

/-- C2 counterexample: reads do *not* return defensive copies.  On the
one-record store (heap `[samplePyGym]`, internal reference list `[0]`),
`get_gym_by_id` returns the stored dict itself (reference 0); a caller
assigning through that reference changes what the store subsequently
presents. -/
theorem C2_defensive_copy_counterexample :
    GymDatabase.get_gym_by_id_ref [samplePyGym] [0] 1 = some 0 ∧
    storeView (mutate [samplePyGym] 0 mutatedPyGym) [0] ≠ storeView [samplePyGym] [0] := by
  refine ⟨rfl, ?_⟩
  intro h
  have h2 : ("HACKED" : String) = "G" :=
    congrArg (fun l : List PyGym => (l.headD default).gym_name) h
  exact absurd h2 (by decide)

/-- C2 amended: the partner filter and the id lookup return the store's own
record references, not copies — the id lookup hands back a reference that is
an element of the internal list, and the falsy-filtered partner read returns
the internal list itself — so a caller mutating a returned record mutates the
store (as the counterexample shows); a truthy partner filter returns a fresh
list whose elements are still the stored references. -/
theorem C2_reads_alias_store : ∀ (h : Heap) (refs : List ℕ) (gym_id : ℤ),
    (∀ r, GymDatabase.get_gym_by_id_ref h refs gym_id = some r → r ∈ refs) ∧
    GymDatabase.get_gyms_by_partner_ref h refs "" = refs ∧
    (∀ p : String, p ≠ "" → ∀ r ∈ GymDatabase.get_gyms_by_partner_ref h refs p, r ∈ refs) := by
  intro h refs gym_id
  refine ⟨?_, ?_, ?_⟩
  · intro r hr
    exact List.mem_of_find?_eq_some hr
  · rw [GymDatabase.get_gyms_by_partner_ref, if_pos rfl]
  · intro p hp r hr
    rw [GymDatabase.get_gyms_by_partner_ref, if_neg hp] at hr
    exact (List.mem_filter.mp hr).1

/-- C2 amended, instantiated at the one-record store. -/
theorem C2_reads_alias_store_witness :
    (∀ r, GymDatabase.get_gym_by_id_ref [samplePyGym] [0] 1 = some r → r ∈ [0]) ∧
    GymDatabase.get_gyms_by_partner_ref [samplePyGym] [0] "" = [0] ∧
    (∀ p : String, p ≠ "" →
      ∀ r ∈ GymDatabase.get_gyms_by_partner_ref [samplePyGym] [0] p, r ∈ [0]) :=
  C2_reads_alias_store [samplePyGym] [0] 1

/-! ### C10 -/

/-- C10: the nearest query leaves the store unchanged: every stored cell
reads back identically afterwards (in particular no stored record gains a
`'distance'` value), the store view is untouched, and the returned records
live in freshly allocated cells disjoint from the store's references. -/
theorem C10_nearby_frame :
    ∀ (dist : ℚ → ℚ → ℚ → ℚ → ℚ) (h : Heap) (refs : List ℕ) (user_lat user_lon : ℚ)
      (partner : Option String) (limit : ℕ),
    (∀ r ∈ refs, r < h.length) →
    storeView (GymDatabase.get_nearby_gyms_ref dist h refs user_lat user_lon partner limit).1
        refs = storeView h refs ∧
    (∀ r ∈ refs,
      hget (GymDatabase.get_nearby_gyms_ref dist h refs user_lat user_lon partner limit).1 r =
        hget h r) ∧
    (∀ r ∈ refs,
      (hget (GymDatabase.get_nearby_gyms_ref dist h refs user_lat user_lon partner limit).1
          r).distance = (hget h r).distance) ∧
    (∀ r' ∈ (GymDatabase.get_nearby_gyms_ref dist h refs user_lat user_lon partner limit).2,
      h.length ≤ r') := by
  intro dist h refs la lo partner limit hvalid
  have hkey : ∀ r ∈ refs,
      hget (GymDatabase.get_nearby_gyms_ref dist h refs la lo partner limit).1 r = hget h r := by
    intro r hr
    show (h ++ _).getD r default = h.getD r default
    exact List.getD_append _ _ _ r (hvalid r hr)
  refine ⟨?_, hkey, fun r hr => by rw [hkey r hr], ?_⟩
  · exact List.map_congr_left hkey
  · obtain ⟨m, hm⟩ : ∃ m,
        (GymDatabase.get_nearby_gyms_ref dist h refs la lo partner limit).2 =
          List.range' h.length m := ⟨_, rfl⟩
    intro r' hr'
    rw [hm] at hr'
    exact (List.mem_range'_1.mp hr').1

/-- C10, instantiated at the one-record store with a concrete distance
function. -/
theorem C10_nearby_frame_witness :
    storeView (GymDatabase.get_nearby_gyms_ref (fun _ _ _ _ => 0) [samplePyGym] [0] 0 0 none 5).1
        [0] = storeView [samplePyGym] [0] ∧
    (∀ r ∈ [0],
      hget (GymDatabase.get_nearby_gyms_ref (fun _ _ _ _ => 0) [samplePyGym] [0] 0 0 none 5).1 r =
        hget [samplePyGym] r) ∧
    (∀ r ∈ [0],
      (hget (GymDatabase.get_nearby_gyms_ref (fun _ _ _ _ => 0) [samplePyGym] [0] 0 0 none 5).1
          r).distance = (hget [samplePyGym] r).distance) ∧
    (∀ r' ∈ (GymDatabase.get_nearby_gyms_ref (fun _ _ _ _ => 0) [samplePyGym] [0] 0 0 none 5).2,
      [samplePyGym].length ≤ r') :=
  C10_nearby_frame (fun _ _ _ _ => 0) [samplePyGym] [0] 0 0 none 5
    (by intro r hr; rw [List.mem_singleton.mp hr]; decide)

/-! ### C9 helpers -/

theorem isPrefixOf_append_self (l t : List Char) : l.isPrefixOf (l ++ t) = true := by
  induction l with
  | nil => simp [List.isPrefixOf]
  | cons c cs ih => simp [List.isPrefixOf, ih]

theorem pyStartswith_append (pre suf : String) : pyStartswith (pre ++ suf) pre = true := by
  rw [pyStartswith, String.data_append]
  exact isPrefixOf_append_self pre.data suf.data

theorem pad3_length : ∀ n < 1000, (pad3 n).length = 3 := by decide

theorem sameDayCount_append_match (today : String) (reqs : List Request) (r : Request)
    (h : pyStartswith r.request_id ("REQ_" ++ today) = true) :
    SubscriptionManager.sameDayCount today (reqs ++ [r]) =
      SubscriptionManager.sameDayCount today reqs + 1 := by
  simp [SubscriptionManager.sameDayCount, List.filter_append, List.filter_cons, h]

/-! ### C9 -/

/-- C9 counterexample: the sequence suffix is *not* always 3 digits.  On a
log already holding 999 requests carrying today's date prefix, the next
`save_request` produces `REQ_20260101_1000` — the `{n:03d}` format only pads
up to width 3, so no 3-character suffix decomposition of this identifier
exists. -/
theorem C9_three_digit_counterexample :
    (SubscriptionManager.save_request "20260101" "t1" (List.replicate 999 sameDayStub)
      sampleRequestData).2 = "REQ_20260101_1000" ∧
    ¬ ∃ suf : String, suf.length = 3 ∧
      (SubscriptionManager.save_request "20260101" "t1" (List.replicate 999 sameDayStub)
        sampleRequestData).2 = "REQ_20260101_" ++ suf := by
  have hcnt : SubscriptionManager.sameDayCount "20260101" (List.replicate 999 sameDayStub) =
      999 := by
    rw [SubscriptionManager.sameDayCount, List.filter_replicate, if_pos (by decide)]
    exact List.length_replicate 999 sameDayStub
  have hid : (SubscriptionManager.save_request "20260101" "t1"
      (List.replicate 999 sameDayStub) sampleRequestData).2 = "REQ_20260101_1000" := by
    have h0 : (SubscriptionManager.save_request "20260101" "t1"
        (List.replicate 999 sameDayStub) sampleRequestData).2 =
        "REQ_" ++ "20260101" ++ "_" ++
          pad3 (SubscriptionManager.sameDayCount "20260101"
            (List.replicate 999 sameDayStub) + 1) := rfl
    rw [h0, hcnt]
    decide
  refine ⟨hid, ?_⟩
  rintro ⟨suf, hlen, heq⟩
  rw [hid] at heq
  have hlen2 := congrArg String.length heq
  rw [String.length_append, hlen] at hlen2
  exact absurd hlen2 (by decide)

/-- C9 amended: each `save_request` id is today's prefix `REQ_<date>_`
followed by the decimal sequence number zero-padded to *at least* 3 digits;
two same-day appends get consecutive, hence strictly increasing, sequence
numbers (the second call counts the first call's record); the suffixes are
exactly 3 digits whenever the same-day count stays below 1000, which the
counterexample shows is a necessary bound. -/
theorem C9_daily_sequence_ids : ∀ (today now1 now2 : String) (reqs : List Request)
    (d1 d2 : RequestData),
    (SubscriptionManager.save_request today now1 reqs d1).2 =
      "REQ_" ++ today ++ "_" ++ pad3 (SubscriptionManager.sameDayCount today reqs + 1) ∧
    (SubscriptionManager.save_request today now2
        (SubscriptionManager.save_request today now1 reqs d1).1 d2).2 =
      "REQ_" ++ today ++ "_" ++ pad3 (SubscriptionManager.sameDayCount today reqs + 2) ∧
    SubscriptionManager.sameDayCount today reqs + 1 <
      SubscriptionManager.sameDayCount today reqs + 2 ∧
    (SubscriptionManager.sameDayCount today reqs + 2 ≤ 999 →
      (pad3 (SubscriptionManager.sameDayCount today reqs + 1)).length = 3 ∧
      (pad3 (SubscriptionManager.sameDayCount today reqs + 2)).length = 3) := by
  intro today now1 now2 reqs d1 d2
  have hstep : SubscriptionManager.sameDayCount today
      (SubscriptionManager.save_request today now1 reqs d1).1 =
        SubscriptionManager.sameDayCount today reqs + 1 := by
    show SubscriptionManager.sameDayCount today (reqs ++ [_]) = _
    apply sameDayCount_append_match
    show pyStartswith ("REQ_" ++ today ++ "_" ++ pad3 _) ("REQ_" ++ today) = true
    rw [String.append_assoc ("REQ_" ++ today) "_" (pad3 _)]
    exact pyStartswith_append _ _
  refine ⟨rfl, ?_, by omega, ?_⟩
  · show "REQ_" ++ today ++ "_" ++
        pad3 (SubscriptionManager.sameDayCount today
          (SubscriptionManager.save_request today now1 reqs d1).1 + 1) = _
    rw [hstep]
  · intro hle
    exact ⟨pad3_length _ (by omega), pad3_length _ (by omega)⟩

/-- C9 amended, instantiated on the empty log: ids `REQ_20260101_001` then
`REQ_20260101_002`. -/
theorem C9_daily_sequence_ids_witness :
    (SubscriptionManager.save_request "20260101" "t1" [] sampleRequestData).2 =
      "REQ_" ++ "20260101" ++ "_" ++ pad3 (SubscriptionManager.sameDayCount "20260101" [] + 1) ∧
    (SubscriptionManager.save_request "20260101" "t2"
        (SubscriptionManager.save_request "20260101" "t1" [] sampleRequestData).1
        sampleRequestData).2 =
      "REQ_" ++ "20260101" ++ "_" ++ pad3 (SubscriptionManager.sameDayCount "20260101" [] + 2) ∧
    SubscriptionManager.sameDayCount "20260101" [] + 1 <
      SubscriptionManager.sameDayCount "20260101" [] + 2 ∧
    (SubscriptionManager.sameDayCount "20260101" [] + 2 ≤ 999 →
      (pad3 (SubscriptionManager.sameDayCount "20260101" [] + 1)).length = 3 ∧
      (pad3 (SubscriptionManager.sameDayCount "20260101" [] + 2)).length = 3) :=
  C9_daily_sequence_ids "20260101" "t1" "t2" [] sampleRequestData sampleRequestData

/-! ### Binary64 rounding: evaluation machinery -/

theorem ilog2_unique {q : ℚ} {e f : ℤ} (h1 : (2:ℚ)^e ≤ q) (h2 : q < (2:ℚ)^(e+1))
    (h3 : (2:ℚ)^f ≤ q) (h4 : q < (2:ℚ)^(f+1)) : e = f := by
  by_contra hne
  rcases lt_or_gt_of_ne hne with h | h
  · have hle : (2:ℚ)^(e+1) ≤ (2:ℚ)^f := zpow_le_zpow_right₀ (by norm_num) (by omega)
    linarith
  · have hle : (2:ℚ)^(f+1) ≤ (2:ℚ)^e := zpow_le_zpow_right₀ (by norm_num) (by omega)
    linarith

theorem ilog2_eq {q : ℚ} {e : ℤ} (h1 : (2:ℚ)^e ≤ q) (h2 : q < (2:ℚ)^(e+1)) :
    ilog2 q = e := by
  have hq : 0 < q := lt_of_lt_of_le (zpow_pos (by norm_num) e) h1
  have hnum : 0 < q.num := Rat.num_pos.mpr hq
  obtain ⟨N, hN⟩ : ∃ N : ℕ, (N : ℤ) = q.num := ⟨q.num.toNat, Int.toNat_of_nonneg hnum.le⟩
  have hNpos : 0 < N := by omega
  have hDpos : 0 < q.den := q.pos
  have hNQ : (N : ℚ) = ((q.num : ℤ) : ℚ) := by exact_mod_cast congrArg (fun z : ℤ => (z : ℚ)) hN
  have hND : (N : ℚ) / (q.den : ℚ) = q := by
    rw [hNQ, Rat.num_div_den]
  have hDne : ((q.den : ℚ)) ≠ 0 := by positivity
  have hDq : q * (q.den : ℚ) = (N : ℚ) := by
    have h' := congrArg (fun x : ℚ => x * (q.den : ℚ)) hND
    simp only [div_mul_cancel₀ _ hDne] at h'
    exact h'.symm
  have hk1 : (2:ℚ)^((N.log2 : ℤ)) ≤ (N : ℚ) := by
    rw [zpow_natCast]
    exact_mod_cast Nat.log2_self_le hNpos.ne'
  have hk2 : (N : ℚ) < (2:ℚ)^((N.log2 : ℤ) + 1) := by
    rw [show ((N.log2 : ℤ) + 1) = ((N.log2 + 1 : ℕ) : ℤ) from by push_cast; ring, zpow_natCast]
    exact_mod_cast Nat.lt_log2_self
  have hj1 : (2:ℚ)^((q.den.log2 : ℤ)) ≤ (q.den : ℚ) := by
    rw [zpow_natCast]
    exact_mod_cast Nat.log2_self_le hDpos.ne'
  have hj2 : (q.den : ℚ) < (2:ℚ)^((q.den.log2 : ℤ) + 1) := by
    rw [show ((q.den.log2 : ℤ) + 1) = ((q.den.log2 + 1 : ℕ) : ℤ) from by push_cast; ring,
      zpow_natCast]
    exact_mod_cast Nat.lt_log2_self
  have hub : q < (2:ℚ)^((N.log2 : ℤ) - q.den.log2 + 1) := by
    rw [show ((N.log2 : ℤ) - q.den.log2 + 1) = ((N.log2 : ℤ) + 1) - q.den.log2 from by ring,
      zpow_sub₀ (two_ne_zero), lt_div_iff₀ (zpow_pos (by norm_num) _)]
    calc q * (2:ℚ)^((q.den.log2 : ℤ))
        ≤ q * (q.den : ℚ) := mul_le_mul_of_nonneg_left hj1 hq.le
      _ = (N : ℚ) := hDq
      _ < (2:ℚ)^((N.log2 : ℤ) + 1) := hk2
  have hlb : (2:ℚ)^((N.log2 : ℤ) - q.den.log2 - 1) < q := by
    rw [show ((N.log2 : ℤ) - q.den.log2 - 1) = (N.log2 : ℤ) - (q.den.log2 + 1) from by ring,
      zpow_sub₀ (two_ne_zero), div_lt_iff₀ (zpow_pos (by norm_num) _)]
    calc (2:ℚ)^((N.log2 : ℤ))
        ≤ (N : ℚ) := hk1
      _ = q * (q.den : ℚ) := hDq.symm
      _ < q * (2:ℚ)^((q.den.log2 : ℤ) + 1) := mul_lt_mul_of_pos_left hj2 hq
  have hNN : q.num.toNat = N := by omega
  rw [ilog2]
  simp only [hNN]
  split_ifs with htest
  · exact ilog2_unique htest
      (by rw [show ((N.log2 : ℤ) - q.den.log2 + 1) = ((N.log2 : ℤ) - q.den.log2) + 1 from by
        ring] at hub; exact hub) h1 h2
  · refine ilog2_unique (le_of_lt hlb) ?_ h1 h2
    rw [show ((N.log2 : ℤ) - q.den.log2 - 1) + 1 = ((N.log2 : ℤ) - q.den.log2) from by ring]
    exact lt_of_not_le htest

theorem fl_eval {q v : ℚ} (e : ℤ) (h1 : (2:ℚ)^e ≤ q) (h2 : q < (2:ℚ)^(e+1))
    (h3 : ((rhe (q * (2:ℚ)^(52 - e)) : ℤ) : ℚ) * (2:ℚ)^(e - 52) = v) : fl q = v := by
  have hq : 0 < q := lt_of_lt_of_le (zpow_pos (by norm_num) e) h1
  rw [fl, if_neg hq.ne', if_pos hq, flPos]
  simp only [ilog2_eq h1 h2]
  exact h3

/-! ### Binary64 constants check and plan-component evaluations

The dyadic constants `lit093`, `lit007`, `lit083`, `lit017` are the binary64
values the Python literals denote: each equals `fl` of the exact decimal. -/

theorem fl_lit093 : fl (93/100) = lit093 := by
  apply fl_eval (-1)
  · norm_num
  · norm_num
  · norm_num [rhe, lit093]

theorem fl_lit007 : fl (7/100) = lit007 := by
  apply fl_eval (-4)
  · norm_num
  · norm_num
  · norm_num [rhe, lit007]

theorem fl_lit083 : fl (83/100) = lit083 := by
  apply fl_eval (-1)
  · norm_num
  · norm_num
  · norm_num [rhe, lit083]

theorem fl_lit017 : fl (17/100) = lit017 := by
  apply fl_eval (-3)
  · norm_num
  · norm_num
  · norm_num [rhe, lit017]

theorem fl_2499 : fl ((2499 : ℚ)) = 2499 := by
  apply fl_eval 11
  · norm_num
  · norm_num
  · norm_num [rhe]

theorem fl_7497 : fl ((7497 : ℚ)) = 7497 := by
  apply fl_eval 12
  · norm_num
  · norm_num
  · norm_num [rhe]

theorem fl_29988 : fl ((29988 : ℚ)) = 29988 := by
  apply fl_eval 14
  · norm_num
  · norm_num
  · norm_num [rhe]

theorem fl_7497_lit093 : fl ((7497 : ℚ) * lit093) = 7666025966296105 / 1099511627776 := by
  apply fl_eval 12
  · norm_num [lit093]
  · norm_num [lit093]
  · norm_num [rhe, lit093]

theorem fl_7497_lit007 : fl ((7497 : ℚ) * lit007) = 4616101657124537 / 8796093022208 := by
  apply fl_eval 9
  · norm_num [lit007]
  · norm_num [lit007]
  · norm_num [rhe, lit007]

theorem fl_2499_lit093 : fl ((2499 : ℚ) * lit093) = 5110683977530737 / 2199023255552 := by
  apply fl_eval 11
  · norm_num [lit093]
  · norm_num [lit093]
  · norm_num [rhe, lit093]

theorem fl_29988_lit083 : fl ((29988 : ℚ) * lit083) = 6841722098952437 / 274877906944 := by
  apply fl_eval 14
  · norm_num [lit083]
  · norm_num [lit083]
  · norm_num [rhe, lit083]

theorem fl_29988_lit017 : fl ((29988 : ℚ) * lit017) = 5605266297936937 / 1099511627776 := by
  apply fl_eval 12
  · norm_num [lit017]
  · norm_num [lit017]
  · norm_num [rhe, lit017]

theorem fl_2499_lit083 : fl ((2499 : ℚ) * lit083) = 1140287016492073 / 549755813888 := by
  apply fl_eval 11
  · norm_num [lit083]
  · norm_num [lit083]
  · norm_num [rhe, lit083]

theorem plans_2499_total3 : pyint (pyIntMulFloat (2499 * 3) lit093) = 6972 := by
  rw [pyIntMulFloat, show (((2499 * 3 : ℤ)) : ℚ) = 7497 from by norm_num, fl_7497,
    fl_7497_lit093, pyint, if_pos (by norm_num)]
  norm_num

theorem plans_2499_monthly3 : pyint (pyIntMulFloat 2499 lit093) = 2324 := by
  rw [pyIntMulFloat, show (((2499 : ℤ)) : ℚ) = 2499 from by norm_num, fl_2499,
    fl_2499_lit093, pyint, if_pos (by norm_num)]
  norm_num

theorem plans_2499_savings3 : pyint (pyIntMulFloat (2499 * 3) lit007) = 524 := by
  rw [pyIntMulFloat, show (((2499 * 3 : ℤ)) : ℚ) = 7497 from by norm_num, fl_7497,
    fl_7497_lit007, pyint, if_pos (by norm_num)]
  norm_num

theorem plans_2499_total12 : pyint (pyIntMulFloat (2499 * 12) lit083) = 24890 := by
  rw [pyIntMulFloat, show (((2499 * 12 : ℤ)) : ℚ) = 29988 from by norm_num, fl_29988,
    fl_29988_lit083, pyint, if_pos (by norm_num)]
  norm_num

theorem plans_2499_monthly12 : pyint (pyIntMulFloat 2499 lit083) = 2074 := by
  rw [pyIntMulFloat, show (((2499 : ℤ)) : ℚ) = 2499 from by norm_num, fl_2499,
    fl_2499_lit083, pyint, if_pos (by norm_num)]
  norm_num

theorem plans_2499_savings12 : pyint (pyIntMulFloat (2499 * 12) lit017) = 5097 := by
  rw [pyIntMulFloat, show (((2499 * 12 : ℤ)) : ℚ) = 29988 from by norm_num, fl_29988,
    fl_29988_lit017, pyint, if_pos (by norm_num)]
  norm_num

/-! ### C4 -/

/-- C4: `calculate_subscription_plans` returns exactly the three tags
`1-month`, `3-month`, `12-month` with totals `base`, `int(base*3*0.93)`,
`int(base*12*0.83)` and savings `0`, `int(base*3*0.07)`, `int(base*12*0.17)`
(each truncation applied to binary64 products, modelled exactly by
`pyIntMulFloat` and the dyadic literal values); in particular `plans(2499)`
has totals 2499, 6972, 24890 and savings 0, 524, 5097, and the savings are
*not* the subtraction of the already-truncated totals:
`2499*3 - 6972 = 525 ≠ 524` and `2499*12 - 24890 = 5098 ≠ 5097`. -/
theorem C4_subscription_plans :
    (∀ base : ℤ, calculate_subscription_plans base =
      [("1-month", ⟨"1 month", base, base, 0⟩),
       ("3-month", ⟨"3 months", pyint (pyIntMulFloat (base * 3) lit093),
          pyint (pyIntMulFloat base lit093), pyint (pyIntMulFloat (base * 3) lit007)⟩),
       ("12-month", ⟨"12 months", pyint (pyIntMulFloat (base * 12) lit083),
          pyint (pyIntMulFloat base lit083), pyint (pyIntMulFloat (base * 12) lit017)⟩)]) ∧
    calculate_subscription_plans 2499 =
      [("1-month", ⟨"1 month", 2499, 2499, 0⟩),
       ("3-month", ⟨"3 months", 6972, 2324, 524⟩),
       ("12-month", ⟨"12 months", 24890, 2074, 5097⟩)] ∧
    (2499 * 3 - 6972 : ℤ) ≠ 524 ∧
    (2499 * 12 - 24890 : ℤ) ≠ 5097 := by
  refine ⟨fun base => rfl, ?_, by norm_num, by norm_num⟩
  simp only [calculate_subscription_plans, plans_2499_total3, plans_2499_monthly3,
    plans_2499_savings3, plans_2499_total12, plans_2499_monthly12, plans_2499_savings12]

/-! ### C6 -/

/-- C6: the Haversine distance is symmetric in its two coordinate pairs, and
zero for identical points (stated for all real coordinates, hence in
particular for all valid ones). -/
theorem C6_haversine_symmetric_and_zero :
    (∀ lat1 lon1 lat2 lon2 : ℝ,
      haversine_distance lat1 lon1 lat2 lon2 = haversine_distance lat2 lon2 lat1 lon1) ∧
    (∀ lat lon : ℝ, haversine_distance lat lon lat lon = 0) := by
  have hsin : ∀ x y : ℝ, Real.sin ((x - y) / 2) ^ 2 = Real.sin ((y - x) / 2) ^ 2 := by
    intro x y
    rw [show (x - y) / 2 = -((y - x) / 2) from by ring, Real.sin_neg]
    ring
  constructor
  · intro lat1 lon1 lat2 lon2
    simp only [haversine_distance]
    rw [hsin (lat2 * (Real.pi / 180)) (lat1 * (Real.pi / 180)),
      hsin (lon2 * (Real.pi / 180)) (lon1 * (Real.pi / 180)),
      mul_comm (Real.cos (lat1 * (Real.pi / 180))) (Real.cos (lat2 * (Real.pi / 180)))]
  · intro lat lon
    simp only [haversine_distance, round2]
    simp [sub_self]
